import Mathlib

/-!
Verification of the PyAPNs client library (`apns.py`): big-endian codecs,
the gateway notification frame, the payload dictionary and its size check,
the feedback-stream incremental parser, the connection state machine, and
the lazily-cached service facade.  Bytes are modelled as natural numbers,
byte strings as `List Nat`.
-/

/-! ## Big-endian codec (`APNs.packed_ushort_big_endian` and friends) -/

/-- `struct.pack('>H', n)`: 2-byte big-endian unsigned short. -/
def pack16 (n : Nat) : List Nat := [n / 256 % 256, n % 256]

/-- `struct.pack('>I', n)`: 4-byte big-endian unsigned int. -/
def pack32 (n : Nat) : List Nat :=
  [n / 16777216 % 256, n / 65536 % 256, n / 256 % 256, n % 256]

/-- `struct.unpack('>H', b)[0]` on (at least) two bytes. -/
def unpack16 (b : List Nat) : Nat := b.getD 0 0 * 256 + b.getD 1 0

/-- `struct.unpack('>I', b)[0]` on (at least) four bytes. -/
def unpack32 (b : List Nat) : Nat :=
  ((b.getD 0 0 * 256 + b.getD 1 0) * 256 + b.getD 2 0) * 256 + b.getD 3 0

theorem pack16_length (n : Nat) : (pack16 n).length = 2 := rfl

theorem pack32_length (n : Nat) : (pack32 n).length = 4 := rfl

theorem unpack16_pack16 (n : Nat) (h : n < 65536) : unpack16 (pack16 n) = n := by
  simp only [unpack16, pack16, List.getD_cons_zero, List.getD_cons_succ]
  omega

theorem unpack32_pack32 (n : Nat) (h : n < 4294967296) : unpack32 (pack32 n) = n := by
  simp only [unpack32, pack32, List.getD_cons_zero, List.getD_cons_succ]
  omega

/-! ## Hex codec (`binascii.b2a_hex` / `binascii.a2b_hex`) -/

/-- Lowercase hex digit of a value below 16 (ASCII code). -/
def hexDigitA (n : Nat) : Nat := if n < 10 then 48 + n else 87 + n

/-- `binascii.b2a_hex`: each byte becomes two lowercase hex digits. -/
def b2a_hex (bs : List Nat) : List Nat :=
  bs.flatMap (fun b => [hexDigitA (b / 16), hexDigitA (b % 16)])

/-- Value of one ASCII hex digit (`0-9`, `a-f`, `A-F`), `none` otherwise. -/
def hexVal (c : Nat) : Option Nat :=
  if 48 ≤ c ∧ c ≤ 57 then some (c - 48)
  else if 97 ≤ c ∧ c ≤ 102 then some (c - 87)
  else if 65 ≤ c ∧ c ≤ 70 then some (c - 55)
  else none

/-- `binascii.a2b_hex`: decodes an even-length hex string to bytes,
failing (an exception in Python) on odd length or a non-hex character. -/
def a2b_hex : List Nat → Option (List Nat)
  | [] => some []
  | [_] => none
  | a :: b :: rest =>
    match hexVal a, hexVal b, a2b_hex rest with
    | some x, some y, some tail => some ((x * 16 + y) :: tail)
    | _, _, _ => none

/-! ## Feedback records and their wire encoding -/

/-- One feedback record: a failure timestamp (seconds since the epoch)
and a raw binary device token. -/
structure FRecord where
  fail_time : Nat
  token : List Nat
deriving DecidableEq

/-- Wire form of one feedback record:
4-byte big-endian timestamp, 2-byte big-endian token length, token bytes. -/
def encodeRecord (r : FRecord) : List Nat :=
  pack32 r.fail_time ++ pack16 r.token.length ++ r.token

/-- Concatenation of the wire forms of a list of records. -/
def encodeFeedback (rs : List FRecord) : List Nat :=
  (rs.map encodeRecord).flatten

/-- Field bounds making the encoding faithful: timestamp fits in 32 bits,
token length fits in 16 bits. -/
def recBounds (r : FRecord) : Prop :=
  r.fail_time < 4294967296 ∧ r.token.length ≤ 65535

instance (r : FRecord) : Decidable (recBounds r) := by
  unfold recBounds; infer_instance

/-- A well-formed record with a non-empty token. -/
def validRec (r : FRecord) : Prop := recBounds r ∧ r.token ≠ []

instance (r : FRecord) : Decidable (validRec r) := by
  unfold validRec; infer_instance

/-- What `FeedbackConnection.items` yields for a record: the pair
`(token_hex, fail_time)` (the timestamp is passed to
`datetime.utcfromtimestamp`, modelled here by the Unix value itself). -/
def recOut (r : FRecord) : List Nat × Nat := (b2a_hex r.token, r.fail_time)

theorem encodeRecord_length (r : FRecord) :
    (encodeRecord r).length = 6 + r.token.length := by
  simp [encodeRecord, pack32, pack16]
  omega

/-! ## The draining loop of `FeedbackConnection.items`

The inner `while len(buff) > 6` loop: peek the token length at offsets
4..6; if the whole record is buffered, decode it and drop its bytes,
otherwise stop.  `drain` returns the decoded records and the remaining
buffer. -/

def drain (buff : List Nat) : List (List Nat × Nat) × List Nat :=
  if h : 6 < buff.length ∧ 6 + unpack16 ((buff.drop 4).take 2) ≤ buff.length then
    ((b2a_hex ((buff.drop 6).take (unpack16 ((buff.drop 4).take 2))),
        unpack32 (buff.take 4)) ::
      (drain (buff.drop (6 + unpack16 ((buff.drop 4).take 2)))).1,
      (drain (buff.drop (6 + unpack16 ((buff.drop 4).take 2)))).2)
  else ([], buff)
termination_by buff.length
decreasing_by
  simp only [List.length_drop]
  omega

theorem drain_pos (b : List Nat)
    (h : 6 < b.length ∧ 6 + unpack16 ((b.drop 4).take 2) ≤ b.length) :
    drain b =
      ((b2a_hex ((b.drop 6).take (unpack16 ((b.drop 4).take 2))),
          unpack32 (b.take 4)) ::
        (drain (b.drop (6 + unpack16 ((b.drop 4).take 2)))).1,
        (drain (b.drop (6 + unpack16 ((b.drop 4).take 2)))).2) := by
  rw [drain]
  exact dif_pos h

theorem drain_neg (b : List Nat)
    (h : ¬(6 < b.length ∧ 6 + unpack16 ((b.drop 4).take 2) ≤ b.length)) :
    drain b = ([], b) := by
  rw [drain]
  exact dif_neg h

/-- A buffer on which the draining loop stops immediately. -/
def stopsDrain (t : List Nat) : Prop :=
  t.length ≤ 6 ∨ t.length < 6 + unpack16 ((t.drop 4).take 2)

instance (t : List Nat) : Decidable (stopsDrain t) := by
  unfold stopsDrain; infer_instance

theorem drain_of_stops (t : List Nat) (h : stopsDrain t) : drain t = ([], t) :=
  drain_neg t (by unfold stopsDrain at h; omega)

/-! ## The chunk loop of `FeedbackConnection.items`

`_chunks` yields successive socket reads and, after yielding a falsy
(empty) read, stops.  `items` appends each chunk to `buff`, breaks when
the buffer is empty or shorter than 6 bytes, and otherwise drains.
`feedbackItems chunks` models a run whose non-empty socket reads are
`chunks`, followed by the empty read of a closed stream. -/

def itemsLoop : List Nat → List (List Nat) → List (List Nat × Nat)
  | _, [] => []
  | buff, chunk :: rest =>
    if buff ++ chunk = [] then []
    else if (buff ++ chunk).length < 6 then []
    else (drain (buff ++ chunk)).1 ++ itemsLoop (drain (buff ++ chunk)).2 rest

def feedbackItems (chunks : List (List Nat)) : List (List Nat × Nat) :=
  itemsLoop [] (chunks ++ [[]])

/-- The buffer contents right after each successive chunk is appended
(before that round's draining), starting from buffer `buff`. -/
def bufTrace : List Nat → List (List Nat) → List (List Nat)
  | _, [] => []
  | buff, chunk :: rest =>
    (buff ++ chunk) :: bufTrace (drain (buff ++ chunk)).2 rest

/-! ## Drain correctness -/

theorem drain_peek (r : FRecord) (rest : List Nat) (hb : r.token.length ≤ 65535) :
    unpack16 (((encodeRecord r ++ rest).drop 4).take 2) = r.token.length := by
  have h1 : encodeRecord r ++ rest =
      pack32 r.fail_time ++ (pack16 r.token.length ++ (r.token ++ rest)) := by
    simp [encodeRecord]
  rw [h1, List.drop_left' (pack32_length _), List.take_left' (pack16_length _),
    unpack16_pack16 _ (by omega)]

theorem drain_ts (r : FRecord) (rest : List Nat) (hb : r.fail_time < 4294967296) :
    unpack32 ((encodeRecord r ++ rest).take 4) = r.fail_time := by
  have h1 : encodeRecord r ++ rest =
      pack32 r.fail_time ++ (pack16 r.token.length ++ (r.token ++ rest)) := by
    simp [encodeRecord]
  rw [h1, List.take_left' (pack32_length _), unpack32_pack32 _ hb]

theorem drain_token (r : FRecord) (rest : List Nat) :
    ((encodeRecord r ++ rest).drop 6).take r.token.length = r.token := by
  have h1 : encodeRecord r ++ rest =
      (pack32 r.fail_time ++ pack16 r.token.length) ++ (r.token ++ rest) := by
    simp [encodeRecord]
  rw [h1, List.drop_left' (by simp [pack32, pack16]),
    List.take_append_of_le_length (by omega), List.take_length]

theorem drain_rest (r : FRecord) (rest : List Nat) :
    (encodeRecord r ++ rest).drop (6 + r.token.length) = rest := by
  rw [List.drop_left' (encodeRecord_length r)]

theorem drain_cons (r : FRecord) (rest : List Nat) (hb : recBounds r)
    (hne : r.token ≠ [] ∨ rest ≠ []) :
    drain (encodeRecord r ++ rest) = (recOut r :: (drain rest).1, (drain rest).2) := by
  have hlen : (encodeRecord r ++ rest).length = 6 + r.token.length + rest.length := by
    simp [encodeRecord_length]
  have hpk := drain_peek r rest hb.2
  have hgt : 6 < (encodeRecord r ++ rest).length := by
    rcases hne with h | h
    · have := List.length_pos.mpr h
      omega
    · have := List.length_pos.mpr h
      omega
  rw [drain_pos _ ⟨hgt, by rw [hpk]; omega⟩, hpk, drain_ts r rest hb.1, drain_token,
    drain_rest, recOut]

theorem drain_encodeFeedback (rs : List FRecord) (t : List Nat)
    (hb : ∀ r ∈ rs, recBounds r)
    (hne : t ≠ [] ∨ ∀ r ∈ rs, r.token ≠ [])
    (ht : stopsDrain t) :
    drain (encodeFeedback rs ++ t) = (rs.map recOut, t) := by
  induction rs with
  | nil => simpa [encodeFeedback] using drain_of_stops t ht
  | cons r rs ih =>
    have h1 : encodeFeedback (r :: rs) ++ t = encodeRecord r ++ (encodeFeedback rs ++ t) := by
      simp [encodeFeedback]
    have hne1 : r.token ≠ [] ∨ encodeFeedback rs ++ t ≠ [] := by
      rcases hne with h | h
      · right
        intro hc
        exact h (List.append_eq_nil.mp hc).2
      · exact Or.inl (h r (by simp))
    have hne2 : t ≠ [] ∨ ∀ r ∈ rs, r.token ≠ [] := by
      rcases hne with h | h
      · exact Or.inl h
      · exact Or.inr fun x hx => h x (by simp [hx])
    rw [h1, drain_cons r _ (hb r (by simp)) hne1,
      ih (fun x hx => hb x (by simp [hx])) hne2]
    simp

theorem encodeFeedback_nil : encodeFeedback [] = [] := rfl

theorem encodeFeedback_cons (r : FRecord) (rs : List FRecord) :
    encodeFeedback (r :: rs) = encodeRecord r ++ encodeFeedback rs := by
  simp [encodeFeedback]

theorem encodeFeedback_append (a b : List FRecord) :
    encodeFeedback (a ++ b) = encodeFeedback a ++ encodeFeedback b := by
  simp [encodeFeedback]

/-- Splitting an arbitrary left part `b` of an encoded record stream at the
last record boundary inside `b`: `b` is a whole number of records followed by
a proper front part `tail` of the next record, and the draining loop stops
on `tail`. -/
theorem split_of_append (rs : List FRecord) (hv : ∀ r ∈ rs, validRec r) :
    ∀ b x : List Nat, b ++ x = encodeFeedback rs →
    ∃ done rest tail, rs = done ++ rest ∧ b = encodeFeedback done ++ tail ∧
      stopsDrain tail ∧
      (tail = [] ∨ ∃ r' rest' , rest = r' :: rest' ∧
        tail.length < (encodeRecord r').length ∧ ∃ y, tail ++ y = encodeRecord r') := by
  induction rs with
  | nil =>
    intro b x hbx
    rw [encodeFeedback_nil, List.append_eq_nil] at hbx
    exact ⟨[], [], [], rfl, by simp [hbx.1, encodeFeedback_nil], Or.inl (by simp),
      Or.inl rfl⟩
  | cons r rs ih =>
    intro b x hbx
    rw [encodeFeedback_cons] at hbx
    by_cases hle : (encodeRecord r).length ≤ b.length
    · have htk : b.take (encodeRecord r).length = encodeRecord r := by
        rw [← List.take_append_of_le_length hle, hbx, List.take_left]
      have hb1 : b = encodeRecord r ++ b.drop (encodeRecord r).length := by
        conv_lhs => rw [← List.take_append_drop (encodeRecord r).length b]
        rw [htk]
      have hbx2 : b.drop (encodeRecord r).length ++ x = encodeFeedback rs := by
        have hcat : encodeRecord r ++ (b.drop (encodeRecord r).length ++ x) =
            encodeRecord r ++ encodeFeedback rs := by
          rw [← List.append_assoc, ← hb1, hbx]
        exact List.append_cancel_left hcat
      obtain ⟨done, rest, tail, h1, h2, h3, h4⟩ :=
        ih (fun a ha => hv a (by simp [ha])) _ _ hbx2
      refine ⟨r :: done, rest, tail, by simp [h1], ?_, h3, h4⟩
      rw [encodeFeedback_cons, List.append_assoc, ← h2, ← hb1]
    · push_neg at hle
      have hlen : (encodeRecord r).length = b.length + ((encodeRecord r).length - b.length) := by
        omega
      have hy : b ++ x.take ((encodeRecord r).length - b.length) = encodeRecord r := by
        calc b ++ x.take ((encodeRecord r).length - b.length)
            = (b ++ x).take (b.length + ((encodeRecord r).length - b.length)) :=
              (List.take_append _).symm
          _ = (b ++ x).take (encodeRecord r).length := by rw [← hlen]
          _ = encodeRecord r := by rw [hbx]; exact List.take_left' rfl
      set y := x.take ((encodeRecord r).length - b.length) with hydef
      have hstop : stopsDrain b := by
        by_cases h6 : b.length ≤ 6
        · exact Or.inl h6
        · push_neg at h6
          right
          have hpk : (b.drop 4).take 2 = ((encodeRecord r).drop 4).take 2 := by
            rw [← hy, List.drop_append_of_le_length (by omega),
              List.take_append_of_le_length (by simp [List.length_drop]; omega)]
          have := drain_peek r [] (hv r (by simp)).1.2
          rw [List.append_nil] at this
          rw [hpk, this]
          have := encodeRecord_length r
          omega
      exact ⟨[], r :: rs, b, rfl, by simp [encodeFeedback_nil], hstop,
        Or.inr ⟨r, rs, rfl, by omega, y, hy⟩⟩

/-- Main invariant of the chunk loop: starting from a buffered proper
front part `carry` of the remaining record stream, if every appended
chunk leaves the buffer with at least 6 bytes, the loop emits exactly
the remaining records. -/
theorem itemsLoop_go (chunks : List (List Nat)) :
    ∀ (rs : List FRecord) (carry : List Nat),
    (∀ r ∈ rs, validRec r) →
    carry ++ chunks.flatten = encodeFeedback rs →
    (carry = [] ∨ ∃ r' rest' , rs = r' :: rest' ∧
      carry.length < (encodeRecord r').length ∧ ∃ y, carry ++ y = encodeRecord r') →
    (∀ b ∈ bufTrace carry chunks, 6 ≤ b.length) →
    itemsLoop carry (chunks ++ [[]]) = rs.map recOut := by
  induction chunks with
  | nil =>
    intro rs carry hv hs hcarry hbuf
    rw [List.flatten_nil, List.append_nil] at hs
    rcases hcarry with rfl | ⟨r', rest', rfl, hlt, y, hy⟩
    · have hrs : rs = [] := by
        cases rs with
        | nil => rfl
        | cons a as =>
          exfalso
          have h1 := congrArg List.length hs
          rw [encodeFeedback_cons] at h1
          have h2 := encodeRecord_length a
          simp [List.length_append] at h1
          omega
      subst hrs
      simp [itemsLoop]
    · exfalso
      have h1 := congrArg List.length hs
      rw [encodeFeedback_cons] at h1
      simp [List.length_append] at h1
      omega
  | cons c cs ih =>
    intro rs carry hv hs hcarry hbuf
    have hblen : 6 ≤ (carry ++ c).length := hbuf _ (by simp [bufTrace])
    have hbne : ¬(carry ++ c = []) := by
      intro h
      rw [h] at hblen
      simp at hblen
    have hs2 : (carry ++ c) ++ cs.flatten = encodeFeedback rs := by
      rw [← hs, List.flatten_cons, List.append_assoc]
    obtain ⟨done, rest, tail, hsplit, hbeq, hstop, htail⟩ :=
      split_of_append rs hv _ _ hs2
    have hvdone : ∀ r ∈ done, validRec r := fun r hr => hv r (by simp [hsplit, hr])
    have hvrest : ∀ r ∈ rest, validRec r := fun r hr => hv r (by simp [hsplit, hr])
    have hdrain : drain (carry ++ c) = (done.map recOut, tail) := by
      rw [hbeq]
      exact drain_encodeFeedback done tail (fun r hr => (hvdone r hr).1)
        (Or.inr fun r hr => (hvdone r hr).2) hstop
    have hx : tail ++ cs.flatten = encodeFeedback rest := by
      have hcat : encodeFeedback done ++ (tail ++ cs.flatten) =
          encodeFeedback done ++ encodeFeedback rest := by
        rw [← List.append_assoc, ← hbeq, hs2, hsplit, encodeFeedback_append]
      exact List.append_cancel_left hcat
    have hbuf2 : ∀ b ∈ bufTrace tail cs, 6 ≤ b.length := by
      intro b hb
      apply hbuf
      rw [bufTrace, hdrain]
      simp [hb]
    have hrec := ih rest tail hvrest hx htail hbuf2
    rw [List.cons_append, itemsLoop, if_neg hbne, if_neg (by omega), hdrain]
    simp only [hrec, hsplit, List.map_append]

theorem itemsLoop_nil (buff : List Nat) : itemsLoop buff [] = [] := rfl

theorem itemsLoop_final (carry : List Nat) (h : drain carry = ([], carry)) :
    itemsLoop carry [[]] = [] := by
  rw [itemsLoop, List.append_nil, h]
  by_cases h1 : carry = []
  · rw [if_pos h1]
  · rw [if_neg h1]
    by_cases h2 : carry.length < 6
    · rw [if_pos h2]
    · rw [if_neg h2, itemsLoop_nil, List.append_nil]

/-- Claim C1 (amended): for every concatenation of well-formed feedback
records with non-empty tokens, and every split of the byte stream into
successive non-empty read chunks such that each read leaves the parse
buffer (previous leftover plus the new chunk) holding at least 6 bytes,
iterating `FeedbackConnection.items` yields exactly the records, in
stream order, each as (hex token, timestamp). -/
theorem c1_feedback_items_amended (rs : List FRecord) (chunks : List (List Nat))
    (hv : ∀ r ∈ rs, validRec r)
    (_hc : ∀ c ∈ chunks, c ≠ [])
    (hs : chunks.flatten = encodeFeedback rs)
    (hb : ∀ b ∈ bufTrace [] chunks, 6 ≤ b.length) :
    feedbackItems chunks = rs.map recOut :=
  itemsLoop_go chunks rs [] hv (by simpa using hs) (Or.inl rfl) hb

theorem c1_feedback_items_amended_witness :
    validRec ⟨5, [171]⟩ ∧
    ([[0, 0, 0, 5, 0, 1], [171]] : List (List Nat)).flatten =
      encodeFeedback [⟨5, [171]⟩] ∧
    feedbackItems [[0, 0, 0, 5, 0, 1], [171]] = [([97, 98], 5)] := by
  refine ⟨by decide, by decide, ?_⟩
  have hd : drain [0, 0, 0, 5, 0, 1] = ([], [0, 0, 0, 5, 0, 1]) :=
    drain_of_stops _ (by decide)
  exact c1_feedback_items_amended [⟨5, [171]⟩] [[0, 0, 0, 5, 0, 1], [171]]
    (by decide) (by decide) (by decide)
    (by
      intro b hmem
      simp only [bufTrace, List.nil_append, hd, itemsLoop_nil] at hmem
      simp only [List.mem_cons, List.not_mem_nil, or_false] at hmem
      rcases hmem with rfl | rfl
      · decide
      · decide)

/-- Claim C1 as stated is false on two concrete inputs: the `items` loop
aborts outright when a socket read leaves fewer than 6 bytes buffered
(here a mid-header split of a single record), and it never decodes a
buffered record whose token length is zero (the `while len(buff) > 6`
test is strict), so in both runs it yields no records at all. -/
theorem c1_counterexample :
    ([[0, 0], [0, 0, 0, 1, 0]] : List (List Nat)).flatten =
      encodeFeedback [⟨0, [0]⟩] ∧
    ([[0, 0], [0, 0, 0, 1, 0]] : List (List Nat)).all (fun c => !c.isEmpty) = true ∧
    validRec ⟨0, [0]⟩ ∧
    feedbackItems [[0, 0], [0, 0, 0, 1, 0]] = [] ∧
    [(⟨0, [0]⟩ : FRecord)].map recOut = [([48, 48], 0)] ∧
    ([[0, 0, 0, 0, 0, 0]] : List (List Nat)).flatten = encodeFeedback [⟨0, []⟩] ∧
    recBounds ⟨0, []⟩ ∧
    feedbackItems [[0, 0, 0, 0, 0, 0]] = [] ∧
    [(⟨0, []⟩ : FRecord)].map recOut = [([], 0)] := by
  refine ⟨by decide, by decide, by decide, by decide, by decide, by decide, by decide,
    ?_, by decide⟩
  have hd : drain [0, 0, 0, 0, 0, 0] = ([], [0, 0, 0, 0, 0, 0]) :=
    drain_of_stops _ (by decide)
  unfold feedbackItems
  rw [show ([[0, 0, 0, 0, 0, 0]] ++ [[]] : List (List Nat)) =
    [0, 0, 0, 0, 0, 0] :: [[]] from rfl]
  rw [itemsLoop, List.nil_append, if_neg (by decide), if_neg (by decide), hd,
    itemsLoop_final _ hd]
  simp

/-- Claim C5: a feedback stream of complete records followed by a
dangling fragment (one the drain loop cannot consume) and then stream
close yields exactly the complete records and ends without error; the
fragment is silently discarded. -/
theorem c5_trailing_fragment (rs : List FRecord) (frag : List Nat)
    (hb : ∀ r ∈ rs, recBounds r) (hf : frag ≠ []) (hstop : stopsDrain frag) :
    feedbackItems [encodeFeedback rs ++ frag] = rs.map recOut := by
  have hdrain : drain (encodeFeedback rs ++ frag) = (rs.map recOut, frag) :=
    drain_encodeFeedback rs frag hb (Or.inl hf) hstop
  unfold feedbackItems
  rw [show ([encodeFeedback rs ++ frag] ++ [[]] : List (List Nat)) =
    (encodeFeedback rs ++ frag) :: [[]] from rfl]
  rw [itemsLoop, List.nil_append]
  have hne : ¬(encodeFeedback rs ++ frag = []) := by
    intro h
    exact hf (List.append_eq_nil.mp h).2
  rw [if_neg hne]
  by_cases hlen : (encodeFeedback rs ++ frag).length < 6
  · rw [if_pos hlen]
    cases rs with
    | nil => simp
    | cons a as =>
      exfalso
      have h1 := encodeRecord_length a
      have h2 : 0 < frag.length := List.length_pos.mpr hf
      rw [encodeFeedback_cons] at hlen
      simp [List.length_append] at hlen
      omega
  · rw [if_neg hlen, hdrain, itemsLoop_final frag (drain_of_stops frag hstop)]
    simp

theorem c5_trailing_fragment_witness :
    recBounds ⟨5, [171]⟩ ∧ ([1, 2, 3] : List Nat) ≠ [] ∧ stopsDrain [1, 2, 3] ∧
    feedbackItems [encodeFeedback [⟨5, [171]⟩] ++ [1, 2, 3]] = [([97, 98], 5)] := by
  refine ⟨by decide, by decide, by decide, ?_⟩
  exact c5_trailing_fragment [⟨5, [171]⟩] [1, 2, 3] (by decide) (by decide) (by decide)

/-! ## Compact JSON encoding

Modelled from the spec: the source delegates serialization to the external
`json` library (`json.dumps(d, separators=(',', ':'), ensure_ascii=False)
.encode('utf-8')`), which the spec declares an external collaborator; this
is its canonical compact encoding.  A JSON string is held as its UTF-8
content bytes; dictionary and alert-object values are held already
encoded, so a dictionary is an insertion-ordered association list from
key bytes to encoded value bytes. -/

/-- Escape of one string content byte inside a JSON string literal. -/
def esc (c : Nat) : List Nat :=
  if c = 34 then [92, 34]
  else if c = 92 then [92, 92]
  else if c = 8 then [92, 98]
  else if c = 12 then [92, 102]
  else if c = 10 then [92, 110]
  else if c = 13 then [92, 114]
  else if c = 9 then [92, 116]
  else if c < 32 then [92, 117, 48, 48, 48 + c / 16, hexDigitA (c % 16)]
  else [c]

/-- Encoded JSON string literal. -/
def jencStr (s : List Nat) : List Nat := [34] ++ s.flatMap esc ++ [34]

/-- Decimal digits (ASCII) of `n`; the first argument is fuel `≥ n + 1`. -/
def natDigitsAux : Nat → Nat → List Nat
  | 0, _ => []
  | f + 1, n => if n < 10 then [48 + n] else natDigitsAux f (n / 10) ++ [48 + n % 10]

/-- Decimal ASCII rendering of an integer, as `json.dumps` prints it. -/
def intAscii (n : Int) : List Nat :=
  if n < 0 then 45 :: natDigitsAux (n.natAbs + 1) n.natAbs
  else natDigitsAux (n.toNat + 1) n.toNat

/-- Comma-separated concatenation. -/
def sepJoin : List (List Nat) → List Nat
  | [] => []
  | [x] => x
  | x :: xs => x ++ [44] ++ sepJoin xs

/-- Encoded JSON object from an association list of key bytes and
already-encoded value bytes. -/
def jencObjE (d : List (List Nat × List Nat)) : List Nat :=
  [123] ++ sepJoin (d.map (fun kv => jencStr kv.1 ++ [58] ++ kv.2)) ++ [125]

/-- Encoded JSON array from already-encoded element bytes. -/
def jencArrE (xs : List (List Nat)) : List Nat := [91] ++ sepJoin xs ++ [93]

/-! ## `PayloadAlert` and `Payload` -/

structure PayloadAlert where
  body : List Nat
  action_loc_key : Option (List Nat) := none
  loc_key : Option (List Nat) := none
  loc_args : Option (List (List Nat)) := none
  launch_image : Option (List Nat) := none
deriving DecidableEq

/-- An optional string field included only when truthy (present and
non-empty), as the Python `if self.x:` checks do. -/
def optStrEntry (k : List Nat) (v : Option (List Nat)) :
    List (List Nat × List Nat) :=
  match v with
  | some s => if s.isEmpty then [] else [(k, jencStr s)]
  | none => []

/-- `PayloadAlert.dict`: `body` always, the other fields under truthiness
checks, in source order (keys `body`, `action-loc-key`, `loc-key`,
`loc-args`, `launch-image`). -/
def PayloadAlert.dict (a : PayloadAlert) : List (List Nat × List Nat) :=
  ([98, 111, 100, 121], jencStr a.body) ::
    (optStrEntry [97, 99, 116, 105, 111, 110, 45, 108, 111, 99, 45, 107, 101, 121]
        a.action_loc_key ++
      optStrEntry [108, 111, 99, 45, 107, 101, 121] a.loc_key ++
      (match a.loc_args with
       | some xs =>
         if xs.isEmpty then []
         else [([108, 111, 99, 45, 97, 114, 103, 115], jencArrE (xs.map jencStr))]
       | none => []) ++
      optStrEntry [108, 97, 117, 110, 99, 104, 45, 105, 109, 97, 103, 101]
        a.launch_image)

/-- The payload alert: either a plain string or a `PayloadAlert` object
(`Payload.dict` checks `isinstance(self.alert, PayloadAlert)`). -/
inductive AlertVal where
  | str (s : List Nat)
  | alertObj (a : PayloadAlert)
deriving DecidableEq

structure Payload where
  alert : Option AlertVal := none
  badge : Option Int := none
  sound : Option (List Nat) := none
  custom : List (List Nat × List Nat) := []
deriving DecidableEq

/-- The key `"aps"`. -/
def apsKey : List Nat := [97, 112, 115]

/-- The notification-fields object of `Payload.dict`: `alert` when truthy
(a `PayloadAlert` object is always truthy, a string only when non-empty),
`sound` when truthy, `badge` whenever it is not `None` (coerced with
`int(...)`), inserted in that order. -/
def apsFields (p : Payload) : List (List Nat × List Nat) :=
  (match p.alert with
   | none => []
   | some (AlertVal.str s) =>
     if s.isEmpty then [] else [([97, 108, 101, 114, 116], jencStr s)]
   | some (AlertVal.alertObj a) =>
     [([97, 108, 101, 114, 116], jencObjE a.dict)]) ++
  (match p.sound with
   | none => []
   | some s => if s.isEmpty then [] else [([115, 111, 117, 110, 100], jencStr s)]) ++
  (match p.badge with
   | none => []
   | some b => [([98, 97, 100, 103, 101], intAscii b)])

/-! ## Python dictionaries as insertion-ordered association lists -/

/-- Lookup in an association list (first matching key). -/
def alookup (k : List Nat) : List (List Nat × List Nat) → Option (List Nat)
  | [] => none
  | kv :: rest => if kv.1 = k then some kv.2 else alookup k rest

/-- `d[k] = v` on a Python dict: updates the value in place when the key
exists, appends the pair otherwise. -/
def setKey (d : List (List Nat × List Nat)) (k : List Nat) (v : List Nat) :
    List (List Nat × List Nat) :=
  if k ∈ d.map Prod.fst then d.map (fun kv => if kv.1 = k then (k, v) else kv)
  else d ++ [(k, v)]

/-- `d.update(u)` on Python dicts. -/
def dictUpdate (d u : List (List Nat × List Nat)) : List (List Nat × List Nat) :=
  u.foldl (fun acc kv => setKey acc kv.1 kv.2) d

/-- `Payload.dict`: the notification fields wrapped under `'aps'`, then
`d.update(self.custom)`. -/
def Payload.dict (p : Payload) : List (List Nat × List Nat) :=
  dictUpdate [(apsKey, jencObjE (apsFields p))] p.custom

/-- `Payload.json`: compact, non-ASCII-preserving encoding of the dict. -/
def Payload.json (p : Payload) : List Nat := jencObjE p.dict

def MAX_PAYLOAD_LENGTH : Nat := 256

/-- `Payload.__init__`: stores the fields and immediately runs
`_check_size`, which raises `PayloadTooLargeError(size)` (modelled as the
`Except.error` carrying the offending size) when the encoded JSON is
longer than `MAX_PAYLOAD_LENGTH`. -/
def payloadInit (alert : Option AlertVal) (badge : Option Int)
    (sound : Option (List Nat)) (custom : List (List Nat × List Nat)) :
    Except Nat Payload :=
  if MAX_PAYLOAD_LENGTH < (Payload.json ⟨alert, badge, sound, custom⟩).length then
    Except.error (Payload.json ⟨alert, badge, sound, custom⟩).length
  else Except.ok ⟨alert, badge, sound, custom⟩

/-! ## `GatewayConnection._get_notification` and the gateway wire format -/

/-- `GatewayConnection._get_notification`: decode the hex token, then
build `'\0' + tokenLen(>H) + token + payloadLen(>H) + payload.json()`.
`none` models the exception `a2b_hex` raises on a malformed hex string. -/
def getNotification (token_hex : List Nat) (p : Payload) : Option (List Nat) :=
  match a2b_hex token_hex with
  | none => none
  | some token_bin =>
    some ([0] ++ pack16 token_bin.length ++ token_bin ++
      pack16 (Payload.json p).length ++ Payload.json p)

/-- Modelled from the spec (refinement counterpart of the round-trip
claim): decoder of the gateway wire format
`command:1 = 0x00 | tokenLen:2(BE) | token:tokenLen | payloadLen:2(BE) |
payload:payloadLen`, succeeding exactly on a whole well-formed frame. -/
def decodeGatewayFrame : List Nat → Option (Nat × Nat × List Nat × Nat × List Nat)
  | [] => none
  | c :: rest =>
    if 2 ≤ rest.length ∧ unpack16 (rest.take 2) ≤ (rest.drop 2).length ∧
        2 ≤ ((rest.drop 2).drop (unpack16 (rest.take 2))).length ∧
        (((rest.drop 2).drop (unpack16 (rest.take 2))).drop 2).length =
          unpack16 (((rest.drop 2).drop (unpack16 (rest.take 2))).take 2) then
      some (c, unpack16 (rest.take 2), (rest.drop 2).take (unpack16 (rest.take 2)),
        unpack16 (((rest.drop 2).drop (unpack16 (rest.take 2))).take 2),
        ((rest.drop 2).drop (unpack16 (rest.take 2))).drop 2)
    else none

/-- Claim C2: for every device token given as hex that decodes to at most
65535 bytes and every payload whose encoded JSON is at most 256 bytes,
the built frame is exactly `0x00 | tokenLen | token | payloadLen |
payload`, and decoding it recovers `(command, tokenLen, token,
payloadLen, payload)` byte-for-byte. -/
theorem c2_gateway_frame_roundtrip (th tb : List Nat) (p : Payload)
    (hhex : a2b_hex th = some tb) (htb : tb.length ≤ 65535)
    (hp : (Payload.json p).length ≤ 256) :
    getNotification th p =
      some ([0] ++ pack16 tb.length ++ tb ++ pack16 (Payload.json p).length ++
        Payload.json p) ∧
    decodeGatewayFrame ([0] ++ pack16 tb.length ++ tb ++
        pack16 (Payload.json p).length ++ Payload.json p) =
      some (0, tb.length, tb, (Payload.json p).length, Payload.json p) := by
  constructor
  · simp [getNotification, hhex]
  · have hfr : [0] ++ pack16 tb.length ++ tb ++ pack16 (Payload.json p).length ++
        Payload.json p =
        0 :: (pack16 tb.length ++
          (tb ++ (pack16 (Payload.json p).length ++ Payload.json p))) := by
      simp [List.append_assoc]
    rw [hfr]
    simp only [decodeGatewayFrame]
    rw [List.take_left' (pack16_length _), List.drop_left' (pack16_length _),
      unpack16_pack16 _ (by omega), List.take_left, List.drop_left,
      List.take_left' (pack16_length _), List.drop_left' (pack16_length _),
      unpack16_pack16 _ (by omega)]
    rw [if_pos ⟨by simp [pack16], by simp, by simp [pack16], by rfl⟩]

theorem c2_gateway_frame_roundtrip_witness :
    a2b_hex [48, 48] = some [0] ∧
    ([0] : List Nat).length ≤ 65535 ∧
    (Payload.json (⟨none, none, none, []⟩ : Payload)).length ≤ 256 ∧
    (getNotification [48, 48] ⟨none, none, none, []⟩ =
        some ([0] ++ pack16 ([0] : List Nat).length ++ [0] ++
          pack16 (Payload.json (⟨none, none, none, []⟩ : Payload)).length ++
          Payload.json ⟨none, none, none, []⟩) ∧
      decodeGatewayFrame ([0] ++ pack16 ([0] : List Nat).length ++ [0] ++
          pack16 (Payload.json (⟨none, none, none, []⟩ : Payload)).length ++
          Payload.json ⟨none, none, none, []⟩) =
        some (0, ([0] : List Nat).length, [0],
          (Payload.json (⟨none, none, none, []⟩ : Payload)).length,
          Payload.json ⟨none, none, none, []⟩)) :=
  ⟨by decide, by decide, by decide,
    c2_gateway_frame_roundtrip [48, 48] [0] ⟨none, none, none, []⟩ (by decide)
      (by decide) (by decide)⟩

/-- Claim C3: constructing a `Payload` fails if and only if the encoded
JSON exceeds 256 bytes; the error carries exactly the offending encoded
size; the check happens at construction, and building a notification
frame for an already-constructed payload never fails on size (only on a
malformed token), so the error is never raised during send. -/
theorem c3_payload_size_check (al : Option AlertVal) (bd : Option Int)
    (sd : Option (List Nat)) (cu : List (List Nat × List Nat)) :
    (MAX_PAYLOAD_LENGTH < (Payload.json ⟨al, bd, sd, cu⟩).length →
      payloadInit al bd sd cu =
        Except.error (Payload.json ⟨al, bd, sd, cu⟩).length) ∧
    ((Payload.json ⟨al, bd, sd, cu⟩).length ≤ MAX_PAYLOAD_LENGTH →
      payloadInit al bd sd cu = Except.ok ⟨al, bd, sd, cu⟩) ∧
    (∀ e, payloadInit al bd sd cu = Except.error e →
      e = (Payload.json ⟨al, bd, sd, cu⟩).length ∧
        MAX_PAYLOAD_LENGTH < (Payload.json ⟨al, bd, sd, cu⟩).length) ∧
    (∀ th tb, a2b_hex th = some tb →
      getNotification th ⟨al, bd, sd, cu⟩ =
        some ([0] ++ pack16 tb.length ++ tb ++
          pack16 (Payload.json ⟨al, bd, sd, cu⟩).length ++
          Payload.json ⟨al, bd, sd, cu⟩)) := by
  refine ⟨fun h => ?_, fun h => ?_, fun e he => ?_, fun th tb hhex => ?_⟩
  · rw [payloadInit, if_pos h]
  · rw [payloadInit, if_neg (by omega)]
  · rw [payloadInit] at he
    by_cases h : MAX_PAYLOAD_LENGTH < (Payload.json ⟨al, bd, sd, cu⟩).length
    · rw [if_pos h] at he
      exact ⟨(Except.error.injEq _ _ ▸ he).symm ▸ rfl, h⟩
    · rw [if_neg h] at he
      exact absurd he (by simp)
  · simp [getNotification, hhex]

set_option maxRecDepth 4096 in
theorem c3_payload_size_check_witness :
    MAX_PAYLOAD_LENGTH <
      (Payload.json ⟨some (AlertVal.str (List.replicate 300 120)), none, none,
        []⟩).length ∧
    payloadInit (some (AlertVal.str (List.replicate 300 120))) none none [] =
      Except.error
        (Payload.json ⟨some (AlertVal.str (List.replicate 300 120)), none, none,
          []⟩).length :=
  ⟨by decide, (c3_payload_size_check _ _ _ _).1 (by decide)⟩

/-! ## Claim C4: the top-level dictionary merge -/

theorem alookup_eq_none (k : List Nat) (u : List (List Nat × List Nat))
    (h : k ∉ u.map Prod.fst) : alookup k u = none := by
  induction u with
  | nil => rfl
  | cons kv u ih =>
    simp only [List.map_cons, List.mem_cons, not_or] at h
    rw [alookup, if_neg (fun he => h.1 he.symm)]
    exact ih h.2

theorem map_if_id (k v : List Nat) (tail : List (List Nat × List Nat))
    (h : ∀ kv ∈ tail, kv.1 ≠ k) :
    tail.map (fun kv => if kv.1 = k then (k, v) else kv) = tail := by
  induction tail with
  | nil => rfl
  | cons kv tail ih =>
    rw [List.map_cons, if_neg (h kv (by simp)), ih (fun x hx => h x (by simp [hx]))]

/-- Running `d.update(u)` on a dict whose first entry holds key `'aps'`
and whose remaining entries do not: the first value is replaced when `u`
binds `'aps'`, and all other bindings of `u` are appended in order. -/
theorem dictUpdate_go (u : List (List Nat × List Nat)) :
    ∀ (w : List Nat) (tail : List (List Nat × List Nat)),
    (u.map Prod.fst).Nodup →
    (∀ kv ∈ tail, kv.1 ≠ apsKey) →
    (∀ kv ∈ u, kv.1 ∉ tail.map Prod.fst) →
    dictUpdate ((apsKey, w) :: tail) u =
      (apsKey, (alookup apsKey u).getD w) ::
        (tail ++ u.filter (fun kv => decide (¬ kv.1 = apsKey))) := by
  induction u with
  | nil =>
    intro w tail _ _ _
    simp [dictUpdate, alookup]
  | cons kv0 u ih =>
    intro w tail hnd htail hdisj
    obtain ⟨k, v⟩ := kv0
    simp only [List.map_cons, List.nodup_cons] at hnd
    rw [show dictUpdate ((apsKey, w) :: tail) ((k, v) :: u) =
      dictUpdate (setKey ((apsKey, w) :: tail) k v) u from rfl]
    by_cases hk : k = apsKey
    · subst hk
      have hset : setKey ((apsKey, w) :: tail) apsKey v = (apsKey, v) :: tail := by
        rw [setKey, if_pos (by simp)]
        simp [map_if_id apsKey v tail htail]
      rw [hset, ih v tail hnd.2 htail (fun x hx => hdisj x (by simp [hx])),
        alookup_eq_none apsKey u hnd.1]
      simp [alookup, List.filter_cons]
    · have hknotin : k ∉ ((apsKey, w) :: tail).map Prod.fst := by
        simp only [List.map_cons, List.mem_cons, not_or]
        exact ⟨hk, hdisj (k, v) (by simp)⟩
      have hset : setKey ((apsKey, w) :: tail) k v =
          (apsKey, w) :: (tail ++ [(k, v)]) := by
        rw [setKey, if_neg hknotin]
        simp
      have htail2 : ∀ kv ∈ tail ++ [(k, v)], kv.1 ≠ apsKey := by
        intro kv hkv
        rcases List.mem_append.mp hkv with h | h
        · exact htail kv h
        · simp only [List.mem_singleton] at h
          rw [h]
          exact hk
      have hdisj2 : ∀ kv ∈ u, kv.1 ∉ (tail ++ [(k, v)]).map Prod.fst := by
        intro kv hkv
        rw [List.map_append]
        intro hmem
        rcases List.mem_append.mp hmem with h | h
        · exact hdisj kv (by simp [hkv]) h
        · simp only [List.map_cons, List.map_nil, List.mem_singleton] at h
          exact hnd.1 (h ▸ List.mem_map_of_mem Prod.fst hkv)
      rw [hset, ih w (tail ++ [(k, v)]) hnd.2 htail2 hdisj2, alookup,
        if_neg (by simpa using hk)]
      simp [List.filter_cons, hk]

/-- Claim C4 (amended): the encoded dictionary is the notification-fields
object wrapped under `'aps'` followed by the custom fields in order; a
custom key equal to an existing top-level key overwrites it, and that
includes the `'aps'` key itself (`d.update(self.custom)` replaces `'aps'`
when the custom mapping binds it). -/
theorem c4_dict_merge_amended (p : Payload)
    (hnd : (p.custom.map Prod.fst).Nodup) :
    Payload.dict p =
      (apsKey, (alookup apsKey p.custom).getD (jencObjE (apsFields p))) ::
        p.custom.filter (fun kv => decide (¬ kv.1 = apsKey)) := by
  rw [Payload.dict]
  simpa using dictUpdate_go p.custom (jencObjE (apsFields p)) [] hnd
    (by simp) (by simp)

theorem c4_dict_merge_amended_witness :
    (([([97], [49])] : List (List Nat × List Nat)).map Prod.fst).Nodup ∧
    Payload.dict ⟨none, some 3, none, [([97], [49])]⟩ =
      (apsKey, (alookup apsKey [([97], [49])]).getD
        (jencObjE (apsFields ⟨none, some 3, none, [([97], [49])]⟩))) ::
        ([([97], [49])] : List (List Nat × List Nat)).filter
          (fun kv => decide (¬ kv.1 = apsKey)) :=
  ⟨by decide, c4_dict_merge_amended ⟨none, some 3, none, [([97], [49])]⟩ (by decide)⟩

/-- Claim C4 as stated is false: a custom mapping binding the key
`'aps'` does overwrite the wrapped `'aps'` entry — for
`Payload(custom={'aps': 0})` the resulting dictionary maps `'aps'` to the
custom value `0`, not to the notification-fields object `{}`. -/
theorem c4_counterexample :
    Payload.dict ⟨none, none, none, [(apsKey, [48])]⟩ = [(apsKey, [48])] ∧
    alookup apsKey (Payload.dict ⟨none, none, none, [(apsKey, [48])]⟩) =
      some [48] ∧
    jencObjE (apsFields ⟨none, none, none, [(apsKey, [48])]⟩) = [123, 125] ∧
    ([48] : List Nat) ≠ [123, 125] := by
  refine ⟨by decide, by decide, by decide, by decide⟩

/-! ## Claim C10: inconsistent field presence checks in `Payload.dict` -/

theorem alookup_append (k : List Nat) (xs ys : List (List Nat × List Nat))
    (h : ∀ kv ∈ xs, kv.1 ≠ k) : alookup k (xs ++ ys) = alookup k ys := by
  induction xs with
  | nil => rfl
  | cons kv xs ih =>
    rw [List.cons_append, alookup, if_neg (h kv (by simp))]
    exact ih (fun x hx => h x (by simp [hx]))

/-- Claim C10: the `badge` field uses an `is not None` check, so
`badge=0` is encoded as `"badge":0`, while `alert` and `sound` use
truthiness checks, so an empty-string alert or sound is omitted
entirely. -/
theorem c10_field_presence :
    (∀ (al : Option AlertVal) (sd : Option (List Nat)) (b : Int)
        (cu : List (List Nat × List Nat)),
      alookup [98, 97, 100, 103, 101] (apsFields ⟨al, some b, sd, cu⟩) =
        some (intAscii b)) ∧
    (∀ (bd : Option Int) (cu : List (List Nat × List Nat)),
      alookup [97, 108, 101, 114, 116]
          (apsFields ⟨some (AlertVal.str []), bd, some [], cu⟩) = none ∧
      alookup [115, 111, 117, 110, 100]
          (apsFields ⟨some (AlertVal.str []), bd, some [], cu⟩) = none) ∧
    Payload.json ⟨none, some 0, none, []⟩ =
      [123, 34, 97, 112, 115, 34, 58, 123, 34, 98, 97, 100, 103, 101, 34, 58, 48,
        125, 125] := by
  refine ⟨fun al sd b cu => ?_, fun bd cu => ?_, by decide⟩
  · rw [apsFields]
    rw [List.append_assoc, alookup_append, alookup_append]
    · simp [alookup]
    · intro kv hkv
      rcases sd with _ | s
      · simp at hkv
      · by_cases hs : s.isEmpty <;> simp [hs] at hkv <;> simp [hkv]
    · intro kv hkv
      rcases al with _ | a
      · simp at hkv
      · cases a with
        | str s =>
          by_cases hs : s.isEmpty <;> simp [hs] at hkv <;> simp [hkv]
        | alertObj a => simp at hkv; simp [hkv]
  · cases bd <;> simp [apsFields, alookup]

/-! ## `APNsConnection`: handle lifecycle, `read`, `write`

The handle (`self._socket`/`self._ssl`) is `none` when disconnected;
a live handle is identified by a socket id.  `fresh` names the socket the
OS would hand out on the next `_connect`.  The outcome of the one
underlying SSL-socket operation an `APNsConnection` method performs is an
explicit event. -/

/-- `_connection()`: reuse the live handle, else `_connect()` afresh. -/
def connectionM (st : Option Nat) (fresh : Nat) : Option Nat × Nat :=
  match st with
  | some s => (some s, s)
  | none => (some fresh, fresh)

/-- Outcome of one underlying socket operation: data returned (possibly
empty on a peer close), a timeout error, or any other socket error. -/
inductive IOEvent where
  | ok (d : List Nat)
  | errTimeout
  | errOther
deriving DecidableEq

/-- What `APNsConnection.read` produces: data, an integer sentinel
(`-1` timed out / `0` no data), or a raised exception. -/
inductive ReadRet where
  | data (d : List Nat)
  | intv (n : Int)
  | exn
deriving DecidableEq

def ReadRet.isData : ReadRet → Bool
  | .data _ => true
  | _ => false

/-- `CHECK_CLOSED_SOCKET_TIMEOUT` (env toggle, default 0.5 seconds). -/
def CHECK_CLOSED_SOCKET_TIMEOUT : Rat := 1 / 2

/-- `APNsConnection.read(n, timeout)`: connects lazily; with a timeout
set, a timeout error returns the `-1` sentinel and any other socket
error returns the `0` sentinel, with no teardown (the handler re-ensures
the connection and clears the timeout); with no timeout, any socket error
disconnects and re-raises. -/
def readM (st : Option Nat) (fresh : Nat) (timeout : Option Rat) (ev : IOEvent) :
    Option Nat × ReadRet :=
  match ev with
  | .ok d => ((connectionM st fresh).1, .data d)
  | .errTimeout =>
    if timeout = none then (none, .exn)
    else ((connectionM st fresh).1, .intv (-1))
  | .errOther =>
    if timeout = none then (none, .exn)
    else ((connectionM st fresh).1, .intv 0)

inductive WriteRet where
  | wrote
  | closedExn
  | ioExn
deriving DecidableEq

/-- The `try: self._connection().write(...)` part of `write`: on success
the (lazily ensured) handle stays; on a socket error `_disconnect()` runs
and the error is re-raised. -/
def writeBody (st : Option Nat) (fresh : Nat) (w_ok : Bool) :
    Option Nat × WriteRet :=
  if w_ok then ((connectionM st fresh).1, .wrote) else (none, .ioExn)

/-- `APNsConnection.write`: when `CHECK_CLOSED_SOCKET` is enabled, first
a 1-byte probe read with `CHECK_CLOSED_SOCKET_TIMEOUT`; any probe result
other than the `-1` timed-out sentinel disconnects and raises
`APNSClosedSocketException`; otherwise the write proceeds. -/
def writeM (check : Bool) (st : Option Nat) (fresh : Nat) (probe : IOEvent)
    (w_ok : Bool) : Option Nat × WriteRet :=
  if check then
    if (readM st fresh (some CHECK_CLOSED_SOCKET_TIMEOUT) probe).2 =
        ReadRet.intv (-1) then
      writeBody (readM st fresh (some CHECK_CLOSED_SOCKET_TIMEOUT) probe).1
        fresh w_ok
    else (none, .closedExn)
  else writeBody st fresh w_ok

/-- Claim C7: with a timeout set, a timeout expiry returns the `-1`
sentinel and any other I/O error returns the `0` sentinel, neither
raising nor tearing down (the handle stays live); with no timeout, any
I/O error tears down the connection and re-raises. -/
theorem c7_read_error_handling (st : Option Nat) (fresh : Nat) (t : Rat) :
    readM st fresh (some t) IOEvent.errTimeout =
      ((connectionM st fresh).1, ReadRet.intv (-1)) ∧
    readM st fresh (some t) IOEvent.errOther =
      ((connectionM st fresh).1, ReadRet.intv 0) ∧
    (connectionM st fresh).1 = some (connectionM st fresh).2 ∧
    readM st fresh none IOEvent.errTimeout = (none, ReadRet.exn) ∧
    readM st fresh none IOEvent.errOther = (none, ReadRet.exn) := by
  refine ⟨?_, ?_, ?_, ?_, ?_⟩ <;> cases st <;> simp [readM, connectionM]

/-- Claim C6 (amended): with the liveness check enabled, `write` probes
with the configured timeout and tears down and raises the
connection-closed error exactly when the probe does NOT return the
timed-out sentinel — that is, when it returns data (even empty, a peer
close) or fails with a non-timeout error; when the probe times out (peer
silent) the write proceeds exactly as an unchecked write. -/
theorem c6_liveness_probe_amended (st : Option Nat) (fresh : Nat) (w_ok : Bool) :
    (∀ probe : IOEvent, probe ≠ IOEvent.errTimeout →
      writeM true st fresh probe w_ok = (none, WriteRet.closedExn)) ∧
    writeM true st fresh IOEvent.errTimeout w_ok =
      writeM false st fresh IOEvent.errTimeout w_ok := by
  constructor
  · intro probe hp
    cases probe with
    | ok d => cases st <;> simp [writeM, readM, connectionM]
    | errTimeout => exact absurd rfl hp
    | errOther => cases st <;> simp [writeM, readM, connectionM]
  · cases st <;> cases w_ok <;> simp [writeM, readM, writeBody, connectionM]

theorem c6_liveness_probe_amended_witness :
    IOEvent.errOther ≠ IOEvent.errTimeout ∧
    writeM true (some 7) 0 IOEvent.errOther true = (none, WriteRet.closedExn) ∧
    writeM true (some 7) 0 IOEvent.errTimeout true =
      writeM false (some 7) 0 IOEvent.errTimeout true :=
  ⟨by decide,
    (c6_liveness_probe_amended (some 7) 0 true).1 IOEvent.errOther (by decide),
    (c6_liveness_probe_amended (some 7) 0 true).2⟩

/-- Claim C6 as stated is false: when the probe fails with a non-timeout
error it returns the `0` no-data sentinel — not data — yet `write` still
tears down and raises the connection-closed error (`ret != -1` is the
only test). -/
theorem c6_counterexample :
    ReadRet.isData (readM (some 7) 0 (some CHECK_CLOSED_SOCKET_TIMEOUT)
      IOEvent.errOther).2 = false ∧
    (readM (some 7) 0 (some CHECK_CLOSED_SOCKET_TIMEOUT) IOEvent.errOther).1 =
      some 7 ∧
    writeM true (some 7) 0 IOEvent.errOther true = (none, WriteRet.closedExn) := by
  refine ⟨by decide, by decide, by decide⟩

/-- Claim C8: a failing write always leaves the connection torn down
(handle `none`) before the error surfaces — both for a transport error
during the write itself and for a probe-detected closure — and the next
operation on a torn-down connection transparently opens a fresh socket
rather than reusing the dead one (a live handle, by contrast, is
reused). -/
theorem c8_write_teardown_reconnect (check : Bool) (st : Option Nat) (fresh : Nat)
    (probe : IOEvent) :
    (writeM check st fresh probe false).1 = none ∧
    writeBody st fresh false = (none, WriteRet.ioExn) ∧
    connectionM none fresh = (some fresh, fresh) ∧
    (∀ s, connectionM (some s) fresh = (some s, s)) ∧
    writeBody none fresh true = (some fresh, WriteRet.wrote) := by
  refine ⟨?_, rfl, rfl, fun s => rfl, rfl⟩
  cases check <;> cases probe <;> cases st <;>
    simp [writeM, writeBody, readM, connectionM]

/-! ## The `APNs` facade and its cached connections -/

structure FeedbackConnection where
  server : String
  port : Nat
  cert_file : Option String
  key_file : Option String
deriving DecidableEq

/-- `FeedbackConnection.__init__`: host selected by the sandbox flag
(`('feedback.push.apple.com', 'feedback.sandbox.push.apple.com')
[use_sandbox]`), port 2196, credentials passed through. -/
def FeedbackConnection.init (use_sandbox : Bool)
    (cert_file key_file : Option String) : FeedbackConnection :=
  ⟨if use_sandbox then "feedback.sandbox.push.apple.com"
    else "feedback.push.apple.com", 2196, cert_file, key_file⟩

structure GatewayConnection where
  server : String
  port : Nat
  cert_file : Option String
  key_file : Option String
deriving DecidableEq

/-- `GatewayConnection.__init__`: host selected by the sandbox flag,
port 2195, credentials passed through. -/
def GatewayConnection.init (use_sandbox : Bool)
    (cert_file key_file : Option String) : GatewayConnection :=
  ⟨if use_sandbox then "gateway.sandbox.push.apple.com"
    else "gateway.push.apple.com", 2195, cert_file, key_file⟩

/-- The `APNs` object state: configuration fixed at construction plus the
two lazily-filled connection caches. -/
structure APNsSt where
  use_sandbox : Bool
  cert_file : Option String
  key_file : Option String
  feedback_conn : Option FeedbackConnection
  gateway_conn : Option GatewayConnection
deriving DecidableEq

/-- `APNs.__init__`: stores the configuration, both caches empty. -/
def APNs_init (use_sandbox : Bool) (cert_file key_file : Option String) : APNsSt :=
  ⟨use_sandbox, cert_file, key_file, none, none⟩

/-- The `gateway_server` property: construct on first access (the cache
is unset), then return the cached instance unchanged. -/
def gateway_server (a : APNsSt) : APNsSt × GatewayConnection :=
  match a.gateway_conn with
  | some g => (a, g)
  | none =>
    (⟨a.use_sandbox, a.cert_file, a.key_file, a.feedback_conn,
        some (GatewayConnection.init a.use_sandbox a.cert_file a.key_file)⟩,
      GatewayConnection.init a.use_sandbox a.cert_file a.key_file)

/-- The `feedback_server` property, symmetrically. -/
def feedback_server (a : APNsSt) : APNsSt × FeedbackConnection :=
  match a.feedback_conn with
  | some f => (a, f)
  | none =>
    (⟨a.use_sandbox, a.cert_file, a.key_file,
        some (FeedbackConnection.init a.use_sandbox a.cert_file a.key_file),
        a.gateway_conn⟩,
      FeedbackConnection.init a.use_sandbox a.cert_file a.key_file)

/-- Claim C9: each accessor is idempotent — a second access returns the
same connection instance and leaves the facade state unchanged — and on
a freshly constructed facade the first access builds the connection from
the facade's sandbox flag and credential paths, caching it. -/
theorem c9_facade_caching (sb : Bool) (cf kf : Option String)
    (fc : Option FeedbackConnection) (gc : Option GatewayConnection) :
    (gateway_server (gateway_server ⟨sb, cf, kf, fc, gc⟩).1).2 =
      (gateway_server ⟨sb, cf, kf, fc, gc⟩).2 ∧
    (gateway_server (gateway_server ⟨sb, cf, kf, fc, gc⟩).1).1 =
      (gateway_server ⟨sb, cf, kf, fc, gc⟩).1 ∧
    (feedback_server (feedback_server ⟨sb, cf, kf, fc, gc⟩).1).2 =
      (feedback_server ⟨sb, cf, kf, fc, gc⟩).2 ∧
    (feedback_server (feedback_server ⟨sb, cf, kf, fc, gc⟩).1).1 =
      (feedback_server ⟨sb, cf, kf, fc, gc⟩).1 ∧
    gateway_server (APNs_init sb cf kf) =
      (⟨sb, cf, kf, none, some (GatewayConnection.init sb cf kf)⟩,
        GatewayConnection.init sb cf kf) ∧
    feedback_server (APNs_init sb cf kf) =
      (⟨sb, cf, kf, some (FeedbackConnection.init sb cf kf), none⟩,
        FeedbackConnection.init sb cf kf) := by
  refine ⟨?_, ?_, ?_, ?_, rfl, rfl⟩ <;> cases gc <;> cases fc <;> rfl
